import Mathlib

/-!
Verification development for the desktop-manager window automation core:
the snapshot differencer, the window state store, the rule engine
(matching, dispatch, statistics) and the polling scheduler interval logic.

Python dictionaries are embedded as association lists, Python scalar values
as the inductive `PyVal`.  Calls into the operating system (`win32`, `re`)
are modelled as oracle parameters; a Python exception escaping such a call
is an `Except.error` value, which the embedded code handles exactly where
the source has a `try`/`except` handler.
-/

namespace DesktopManager

/-- A Python scalar value as stored in window-info dictionaries:
`None`, a bool, an int, or a string. -/
inductive PyVal where
  | none
  | bool (b : Bool)
  | int (n : Int)
  | str (s : String)
deriving DecidableEq, Repr

/-- Python truthiness of a scalar value (`bool(v)`). -/
def truthy : PyVal → Bool
  | .none => false
  | .bool b => b
  | .int n => decide (n ≠ 0)
  | .str s => decide (s ≠ "")

/-- A Python dictionary with string keys and scalar values,
e.g. the `window_info` dictionaries built by `get_window_info`. -/
abbrev PyDict := List (String × PyVal)

/-- Lookup in an association list (`d[k]` / `k in d`), first binding wins,
mirroring a Python dict in which keys are unique. -/
def alGet {α β : Type} [DecidableEq α] (k : α) : List (α × β) → Option β
  | [] => Option.none
  | (k0, v) :: rest => if k0 = k then some v else alGet k rest

/-- `d.get(k, default)`. -/
def alGetD {α β : Type} [DecidableEq α] (k : α) (l : List (α × β)) (dflt : β) : β :=
  (alGet k l).getD dflt

/-- `d[k] = v`: replace the binding in place if the key is present,
otherwise append it. -/
def alInsert {α β : Type} [DecidableEq α] (k : α) (v : β) : List (α × β) → List (α × β)
  | [] => [(k, v)]
  | (k0, v0) :: rest => if k0 = k then (k, v) :: rest else (k0, v0) :: alInsert k v rest

/-- `del d[k]` (a no-op when the key is absent, matching the guarded
`if hwnd in state: del state[hwnd]` in the source).  On key-unique
association lists this is exactly Python dict deletion. -/
def alErase {α β : Type} [DecidableEq α] (k : α) (l : List (α × β)) : List (α × β) :=
  l.filter (fun p => p.1 ≠ k)

/-- `old.update(new)`: write every binding of `new` into `old`, in order. -/
def pyDictUpdate (old new : PyDict) : PyDict :=
  new.foldl (fun acc p => alInsert p.1 p.2 acc) old

theorem alGet_alInsert_self {α β : Type} [DecidableEq α] (k : α) (v : β) (l : List (α × β)) :
    alGet k (alInsert k v l) = some v := by
  induction l with
  | nil => simp [alInsert, alGet]
  | cons p rest ih =>
    obtain ⟨k0, v0⟩ := p
    by_cases h : k0 = k
    · simp [alInsert, h, alGet]
    · simp [alInsert, h, alGet, ih]

theorem alGet_alInsert_ne {α β : Type} [DecidableEq α] (k k0 : α) (v : β) (l : List (α × β))
    (h : k0 ≠ k) : alGet k (alInsert k0 v l) = alGet k l := by
  induction l with
  | nil => simp [alInsert, alGet, h]
  | cons p rest ih =>
    obtain ⟨k1, v1⟩ := p
    by_cases h1 : k1 = k0
    · subst h1
      simp [alInsert, alGet, h]
    · simp only [alInsert, if_neg h1]
      by_cases h2 : k1 = k
      · simp [alGet, h2]
      · simp [alGet, h2, ih]

theorem alGet_alInsert_isSome {α β : Type} [DecidableEq α] (k k0 : α) (v : β)
    (l : List (α × β)) (h : (alGet k l).isSome) :
    (alGet k (alInsert k0 v l)).isSome := by
  by_cases hk : k0 = k
  · subst hk
    simp [alGet_alInsert_self]
  · rwa [alGet_alInsert_ne _ _ _ _ hk]

theorem alGet_alErase_self {α β : Type} [DecidableEq α] (k : α) (l : List (α × β)) :
    alGet k (alErase k l) = Option.none := by
  induction l with
  | nil => simp [alErase, alGet]
  | cons p rest ih =>
    obtain ⟨k0, v0⟩ := p
    by_cases h : k0 = k
    · simpa [alErase, h] using ih
    · simpa [alErase, alGet, h] using ih

theorem alGet_alErase_ne {α β : Type} [DecidableEq α] (k k0 : α) (l : List (α × β))
    (h : k0 ≠ k) : alGet k0 (alErase k l) = alGet k0 l := by
  induction l with
  | nil => simp [alErase, alGet]
  | cons p rest ih =>
    obtain ⟨k1, v1⟩ := p
    by_cases h1 : k1 = k
    · subst h1
      have h0 : ¬ (k1 = k0) := fun hh => h hh.symm
      simp [alErase, alGet, List.filter_cons, h0] at ih ⊢
      exact ih
    · simp [alErase, alGet, List.filter_cons, h1] at ih ⊢
      simp [ih]

/-- A key not written by `update` keeps its old value. -/
theorem pyDictUpdate_not_mem (old new : PyDict) (k : String)
    (h : k ∉ new.map Prod.fst) :
    alGet k (pyDictUpdate old new) = alGet k old := by
  induction new generalizing old with
  | nil => simp [pyDictUpdate]
  | cons p rest ih =>
    obtain ⟨k0, v0⟩ := p
    simp only [List.map_cons, List.mem_cons] at h
    push_neg at h
    have step : pyDictUpdate old ((k0, v0) :: rest) = pyDictUpdate (alInsert k0 v0 old) rest := rfl
    rw [step, ih _ h.2, alGet_alInsert_ne _ _ _ _ (fun hh => h.1 hh.symm)]

/-- A key written by `update` (on a key-unique dictionary) takes the new
value. -/
theorem pyDictUpdate_mem (old new : PyDict) (k : String)
    (hnd : (new.map Prod.fst).Nodup) (h : k ∈ new.map Prod.fst) :
    alGet k (pyDictUpdate old new) = alGet k new := by
  induction new generalizing old with
  | nil => simp at h
  | cons p rest ih =>
    obtain ⟨k0, v0⟩ := p
    simp only [List.map_cons, List.nodup_cons] at hnd
    have step : pyDictUpdate old ((k0, v0) :: rest) = pyDictUpdate (alInsert k0 v0 old) rest := rfl
    simp only [List.map_cons, List.mem_cons] at h
    by_cases hk : k = k0
    · subst hk
      rw [step, pyDictUpdate_not_mem _ _ _ hnd.1, alGet_alInsert_self]
      simp [alGet]
    · have hmem : k ∈ rest.map Prod.fst := by
        rcases h with h | h
        · exact absurd h hk
        · exact h
      have h0 : ¬ (k0 = k) := fun hh => hk hh.symm
      rw [step, ih _ hnd.2 hmem]
      simp [alGet, h0]

/-!
## Differencer and polling monitor (`src/core/event_monitor.py`)

`_run_message_loop` keeps, per polling cycle, a basic-info snapshot: a dict
`hwnd -> {hwnd, title, class_name}` of the visible, parentless, titled,
non-system windows.  A snapshot is embedded as a finite key set together
with a (title, class) assignment — exactly the data the differencer reads.
-/

/-- One enumeration snapshot: the tracked handles and, for each handle,
its `(title, class_name)` comparison fields. -/
structure Snapshot where
  keys : Finset Int
  info : Int → String × String

/-- `new_windows = set(current) - set(previous)` (event_monitor line 131). -/
def diffCreated (previous current : Snapshot) : Finset Int :=
  current.keys \ previous.keys

/-- `closed_windows = set(previous) - set(current)` (event_monitor line 132). -/
def diffDestroyed (previous current : Snapshot) : Finset Int :=
  previous.keys \ current.keys

/-- `changed_windows`: handles in both snapshots whose title or class
differs (event_monitor lines 136-139). -/
def diffChanged (previous current : Snapshot) : Finset Int :=
  (current.keys ∩ previous.keys).filter
    (fun hwnd => current.info hwnd ≠ previous.info hwnd)

/-- The unchanged remainder: handles in both snapshots with identical
title and class (not materialized by the source; the complement of
`diffChanged` inside the intersection). -/
def diffUnchanged (previous current : Snapshot) : Finset Int :=
  (current.keys ∩ previous.keys).filter
    (fun hwnd => current.info hwnd = previous.info hwnd)

/-- Windows event ids used by the monitor and the engine
(`win32con.EVENT_OBJECT_CREATE` etc.). -/
def EVENT_OBJECT_CREATE : Int := 32768
def EVENT_OBJECT_DESTROY : Int := 32769
def EVENT_OBJECT_SHOW : Int := 32770
def EVENT_OBJECT_HIDE : Int := 32771
def EVENT_SYSTEM_FOREGROUND : Int := 3
def EVENT_OBJECT_NAMECHANGE : Int := 32780

/-- `win32con.SW_SHOWNORMAL`. -/
def SW_SHOWNORMAL : Int := 1

/-- The minimal window-info dictionary synthesized for a closed window
(event_monitor lines 153-162): last known title and class, `is_visible`
false, no pid or executable path. -/
def closedWindowInfo (hwnd : Int) (title class_name : String) : PyDict :=
  [("hwnd", .int hwnd), ("title", .str title), ("class_name", .str class_name),
   ("pid", .none), ("exe_path", .none), ("is_visible", .bool false),
   ("is_top_level", .bool false), ("window_state", .int SW_SHOWNORMAL)]

/-- One polling cycle's event emission (event_monitor lines 141-171):
`CREATE` with freshly fetched full info for each new window (skipped when
`get_window_info` yields a falsy dict), `DESTROY` with the synthesized
minimal info for each closed window, `NAMECHANGE` with fresh full info for
each changed window.  Python set iteration order is unspecified; handles
are emitted here in ascending order. -/
def pollTick (getFull : Int → PyDict) (previous current : Snapshot) :
    List (Int × Int × PyDict) :=
  ((diffCreated previous current).sort (· ≤ ·)).filterMap
    (fun hwnd => if getFull hwnd = [] then Option.none
      else some (EVENT_OBJECT_CREATE, hwnd, getFull hwnd))
  ++ ((diffDestroyed previous current).sort (· ≤ ·)).map
    (fun hwnd => (EVENT_OBJECT_DESTROY, hwnd,
      closedWindowInfo hwnd (previous.info hwnd).1 (previous.info hwnd).2))
  ++ ((diffChanged previous current).sort (· ≤ ·)).filterMap
    (fun hwnd => if getFull hwnd = [] then Option.none
      else some (EVENT_OBJECT_NAMECHANGE, hwnd, getFull hwnd))

/-!
## Polling scheduler interval (`src/core/event_monitor.py`)

`set_polling_interval` and the loop's sleep.  Intervals are Python floats
used only in comparisons against the literals `0.1` and `60.0` and stored
verbatim; since no rounding arithmetic is performed, they are embedded as
rationals (no double lies strictly between `1/10` and the double literal
`0.1`, so every comparison agrees with the float semantics).
-/

/-- The monitor state read by the polling loop. -/
structure MonitorState where
  polling_interval : ℚ
  running : Bool
deriving DecidableEq, Repr

/-- `set_polling_interval` (event_monitor lines 278-300): clamp the
request to `[0.1, 60.0]`, store it under the interval lock, return
`True`. -/
def setPollingInterval (st : MonitorState) (interval : ℚ) : MonitorState × Bool :=
  let clamped : ℚ :=
    if interval < 1/10 then 1/10
    else if interval > 60 then 60
    else interval
  ({ st with polling_interval := clamped }, true)

/-- The duration the polling loop sleeps for at the end of a cycle
(event_monitor lines 177-179): the stored interval, read under the same
lock. -/
def loopSleepDuration (st : MonitorState) : ℚ :=
  st.polling_interval

/-!
## Rules as evaluated by the engine (`src/rules/engine.py`, `config.py`)

A loaded rule record, at the field types the load-time validator
guarantees and the engine reads.  Optional trigger fields model
`trigger.get(...)` returning `None` versus a string.
-/

/-- A rule's trigger block: `trigger.get('event_type')`,
`trigger.get('executable_name')` etc. -/
structure Trigger where
  event_type : Option String
  executable_name : Option String
  window_class : Option String
  title_pattern : Option String
deriving DecidableEq, Repr

/-- A rule's action block: `action['type']` plus the Boolean target
filter flags read with `action.get(flag, False)`. -/
structure RuleAction where
  type : String
  exclude_trigger_window : Bool
  is_visible : Bool
  is_top_level : Bool
deriving DecidableEq, Repr

/-- A loaded rule record. -/
structure Rule where
  name : String
  enabled : Bool
  priority : Option Int
  trigger : Trigger
  action : RuleAction
deriving DecidableEq, Repr

/-- `rule.get('priority', 0)`: the sort key used by
`sort_rules_by_priority`. -/
def prioOf (r : Rule) : Int :=
  r.priority.getD 0

/-- `get_enabled_rules` (config lines 267-277): keep the rules whose
`enabled` flag is set. -/
def getEnabledRules (rules : List Rule) : List Rule :=
  rules.filter (fun r => r.enabled)

/-- `sort_rules_by_priority` (config lines 280-290):
`sorted(rules, key=lambda x: x.get('priority', 0), reverse=True)`.
Python's `sorted` is the unique stable sort; with `reverse=True` it
stably orders by descending key, i.e. mergesort under
`le a b := prioOf b ≤ prioOf a`. -/
def sortRulesByPriority (rules : List Rule) : List Rule :=
  rules.mergeSort (fun a b => decide (prioOf b ≤ prioOf a))

/-- External behaviour the engine calls into: the `re` module and the
five action helpers of `src/rules/actions.py` (which drive win32 calls).
An `Except.error` is a Python exception escaping the call. -/
structure Oracles where
  search : String → String → Except Unit Bool
  runAction : String → List PyDict → PyDict → Except Unit Bool

/-- `os.path.basename` on a Windows path: the suffix after the last
`\x5c` or `/` separator (drive-relative forms such as `C:file` do not
occur for the absolute executable paths compared here). -/
def pyBasename (s : String) : String :=
  (s.data.foldl (fun acc c => if c = '/' ∨ c = '\\' then [] else acc ++ [c]) []).asString

/-- Python `str.lower()` (ASCII range, which covers the executable names
compared here). -/
def pyLower (s : String) : String :=
  (s.data.map Char.toLower).asString

/-- The `executable_name` clause of `_match_rule_condition` (engine
lines 160-168): the window's `exe_path` must be a truthy string whose
lowercased basename equals the lowercased expected name; a falsy path
(absent, `None` or empty) never matches, and a non-string path raises
inside the handler, which also yields no match. -/
def exeCondition (expected : String) (window_info : PyDict) : Bool :=
  match alGetD "exe_path" window_info (.str "") with
  | .str s => if s = "" then false else decide (pyLower (pyBasename s) = pyLower expected)
  | _ => false

/-- The `window_class` clause (engine lines 171-175): exact,
case-sensitive equality against `window_info.get('class_name', '')`. -/
def classCondition (expected : String) (window_info : PyDict) : Bool :=
  decide (alGetD "class_name" window_info (.str "") = .str expected)

/-- The `title_pattern` clause (engine lines 178-183):
`re.search(pattern, title)` must succeed; a raising search (or a
non-string title) is caught by the surrounding handler and yields no
match. -/
def titleCondition (o : Oracles) (pattern : String) (window_info : PyDict) : Bool :=
  match alGetD "title" window_info (.str "") with
  | .str s =>
    match o.search pattern s with
    | .ok b => b
    | .error _ => false
  | _ => false

/-- `_match_rule_condition` (engine lines 139-189): event type equality,
then the three optional trigger clauses in sequence. -/
def matchRuleCondition (o : Oracles) (rule : Rule) (event_type : String)
    (window_info : PyDict) : Bool :=
  decide (rule.trigger.event_type = some event_type)
  && (match rule.trigger.executable_name with
      | Option.none => true
      | some e => exeCondition e window_info)
  && (match rule.trigger.window_class with
      | Option.none => true
      | some c => classCondition c window_info)
  && (match rule.trigger.title_pattern with
      | Option.none => true
      | some p => titleCondition o p window_info)

/-- `_window_matches_filter` (engine lines 224-257): the
`is_visible`/`is_top_level` requirements of the action's target filter
(`same_executable` is explicitly a no-op in the source). -/
def windowMatchesFilter (window_info : PyDict) (action : RuleAction) : Bool :=
  (!action.is_visible || truthy (alGetD "is_visible" window_info (.bool false)))
  && (!action.is_top_level || truthy (alGetD "is_top_level" window_info (.bool false)))

/-- `_filter_target_windows` (engine lines 191-222): walk the window
state, skip the triggering window when `exclude_trigger_window` is set,
keep the windows passing the filter. -/
def filterTargetWindows (rule : Rule) (new_window_info : PyDict)
    (windowState : List (Int × PyDict)) : List PyDict :=
  (windowState.filter (fun p =>
      (!(rule.action.exclude_trigger_window
          && decide (alGetD "hwnd" new_window_info .none = .int p.1)))
      && windowMatchesFilter p.2 rule.action)).map Prod.snd

/-- The five recognized action type strings, i.e. the `elif` chain of
`perform_action` (actions lines 29-38) and `get_supported_actions`. -/
def knownActionTypes : List String :=
  ["MINIMIZE_OTHERS_OF_SAME_APP", "CLOSE_DUPLICATE_PATH",
   "BRING_TO_FOREGROUND", "CLOSE_WINDOW", "HIDE_WINDOW"]

/-- `perform_action` (actions lines 13-45): dispatch on the action type
string; a recognized type runs its helper (an escaping exception is
caught by the surrounding handler and reported as failure), an
unrecognized type is logged and reported as failure. -/
def performAction (o : Oracles) (action_type : String)
    (target_windows : List PyDict) (new_window_info : PyDict) : Bool :=
  if action_type ∈ knownActionTypes then
    match o.runAction action_type target_windows new_window_info with
    | .ok b => b
    | .error _ => false
  else false

/-!
## Engine state and `process_event` (`src/rules/engine.py`)
-/

/-- The engine's mutable state: `_internal_window_state`, `_event_count`
and the `defaultdict(int)` `_rule_execution_count`. -/
structure EngineState where
  windowState : List (Int × PyDict)
  eventCount : Nat
  ruleExecCount : List (String × Nat)
deriving DecidableEq, Repr

/-- `self.event_type_mapping.get(event_id, f"UNKNOWN_<id>")` (engine
lines 34-41 and 77). -/
def eventTypeOfId (event_id : Int) : String :=
  if event_id = EVENT_OBJECT_CREATE then "CREATE"
  else if event_id = EVENT_OBJECT_DESTROY then "DESTROY"
  else if event_id = EVENT_OBJECT_SHOW then "SHOW"
  else if event_id = EVENT_OBJECT_HIDE then "HIDE"
  else if event_id = EVENT_SYSTEM_FOREGROUND then "FOREGROUND"
  else if event_id = EVENT_OBJECT_NAMECHANGE then "NAMECHANGE"
  else "UNKNOWN_" ++ toString event_id

/-- `_update_window_state` (engine lines 112-137): replace on
`CREATE`/`SHOW`, delete on `DESTROY`/`HIDE` (guarded on presence), merge
via `dict.update` on `NAMECHANGE` (only when present), and leave the
state untouched for any other event type string. -/
def updateWindowState (event_type : String) (hwnd : Int) (window_info : PyDict)
    (ws : List (Int × PyDict)) : List (Int × PyDict) :=
  if event_type = "CREATE" ∨ event_type = "SHOW" then
    alInsert hwnd window_info ws
  else if event_type = "DESTROY" ∨ event_type = "HIDE" then
    alErase hwnd ws
  else if event_type = "NAMECHANGE" then
    match alGet hwnd ws with
    | some old => alInsert hwnd (pyDictUpdate old window_info) ws
    | Option.none => ws
  else ws

/-- `self._rule_execution_count[rule['name']] += 1` on a defaultdict. -/
def bumpCount (name : String) (counts : List (String × Nat)) : List (String × Nat) :=
  alInsert name (alGetD name counts 0 + 1) counts

/-- The body of the rule loop of `process_event` (engine lines 89-107)
for one rule, threading the engine state and recording the rule's name in
an evaluation trace.  A matched rule with a non-empty target list runs
`perform_action` and bumps the rule's execution count only on success. -/
def evalRuleStep (o : Oracles) (event_type : String) (window_info : PyDict)
    (acc : EngineState × List String) (rule : Rule) : EngineState × List String :=
  let s := acc.1
  let s1 :=
    if matchRuleCondition o rule event_type window_info then
      let targets := filterTargetWindows rule window_info s.windowState
      if targets.isEmpty then s
      else if performAction o rule.action.type targets window_info then
        { s with ruleExecCount := bumpCount rule.name s.ruleExecCount }
      else s
    else s
  (s1, acc.2 ++ [rule.name])

/-- `process_event` (engine lines 64-110): count the event, map its id to
an event type string, apply it to the window state, then evaluate every
enabled rule in stably-sorted priority order.  The embedding additionally
returns the trace of rule names the loop evaluated, in order.  Helper
failures are values (`Except.error` in the oracles), handled inside
`matchRuleCondition` and `performAction` exactly as the per-helper
`try`/`except` blocks do, so the function is total. -/
def processEvent (o : Oracles) (rules : List Rule) (st : EngineState)
    (event_id : Int) (hwnd : Int) (window_info : PyDict) :
    EngineState × List String :=
  let st1 : EngineState := { st with eventCount := st.eventCount + 1 }
  let event_type := eventTypeOfId event_id
  let st2 : EngineState :=
    { st1 with windowState := updateWindowState event_type hwnd window_info st1.windowState }
  let sortedRules := sortRulesByPriority (getEnabledRules rules)
  sortedRules.foldl (evalRuleStep o event_type window_info) (st2, [])

/-- `_initialize_window_state` (engine lines 48-62): for every enumerated
handle, fetch its info and store it when the info dict and its title are
truthy.  Existing entries are only ever overwritten, never removed. -/
def initializeWindowState (handles : List Int) (getInfo : Int → PyDict)
    (ws : List (Int × PyDict)) : List (Int × PyDict) :=
  handles.foldl (fun acc hwnd =>
    let window_info := getInfo hwnd
    if window_info ≠ [] ∧ truthy (alGetD "title" window_info .none) then
      alInsert hwnd window_info acc
    else acc) ws

/-- `refresh_window_state` (engine lines 284-292): re-runs
`_initialize_window_state` on a fresh enumeration. -/
def refreshWindowState (handles : List Int) (getInfo : Int → PyDict)
    (ws : List (Int × PyDict)) : List (Int × PyDict) :=
  initializeWindowState handles getInfo ws

/-!
## Load-time rule validation (`src/rules/config.py`)

Raw parsed JSON as far as the validator inspects it: a list entry is
either a scalar (never valid) or a record of fields, each field a scalar
or a flat record (the trigger and action blocks). -/

/-- A field value inside a raw rule record. -/
inductive RuleField where
  | atom (v : PyVal)
  | dict (d : List (String × PyVal))
deriving DecidableEq, Repr

/-- One entry of the parsed rules list. -/
inductive RawItem where
  | atom (v : PyVal)
  | rule (fields : List (String × RuleField))
deriving DecidableEq, Repr

/-- The six recognized trigger event types (config lines 173-177). -/
def validEventTypes : List String :=
  ["CREATE", "DESTROY", "SHOW", "HIDE", "FOREGROUND", "NAMECHANGE"]

/-- The five recognized action types (config lines 179-189). -/
def validActionTypes : List String :=
  ["MINIMIZE_OTHERS_OF_SAME_APP", "CLOSE_DUPLICATE_PATH",
   "BRING_TO_FOREGROUND", "CLOSE_WINDOW", "HIDE_WINDOW"]

/-- `_validate_rule` (config lines 132-195): require the `name`,
`enabled`, `trigger` and `action` fields; require the trigger and action
to be dictionaries carrying `event_type` resp. `type`; require those to
be recognized strings.  A non-record entry fails inside the validator's
exception handler and is likewise rejected. -/
def validateRule : RawItem → Bool
  | .atom _ => false
  | .rule fields =>
    (alGet "name" fields).isSome && (alGet "enabled" fields).isSome
    && (alGet "trigger" fields).isSome && (alGet "action" fields).isSome
    && (match alGet "trigger" fields with
        | some (.dict trigger) =>
          (match alGet "action" fields with
           | some (.dict action) =>
             (alGet "event_type" trigger).isSome && (alGet "type" action).isSome
             && (match alGet "event_type" trigger with
                 | some (.str s) => decide (s ∈ validEventTypes)
                 | _ => false)
             && (match alGet "type" action with
                 | some (.str s) => decide (s ∈ validActionTypes)
                 | _ => false)
           | _ => false)
        | _ => false)

/-- The validation loop of `load_rules` (config lines 70-77): start from
the empty list and append each rule that validates. -/
def loadRules (rules : List RawItem) : List RawItem :=
  rules.foldl (fun validated r => if validateRule r then validated ++ [r] else validated) []

/-!
## Theorems
-/

/-- C1: for every pair of snapshots, the differencer computes
`created = current.keys − previous.keys`,
`destroyed = previous.keys − current.keys`, and `changed` = the handles
present in both maps whose title or class differs; created, destroyed,
changed and the unchanged remainder are pairwise disjoint and partition
`previous.keys ∪ current.keys` (in particular `created ∩ destroyed = ∅`),
and diffing any snapshot against itself yields empty created, destroyed
and changed sets. -/
theorem diff_partitions (previous current : Snapshot) :
    diffCreated previous current = current.keys \ previous.keys
    ∧ diffDestroyed previous current = previous.keys \ current.keys
    ∧ (∀ hwnd : Int, hwnd ∈ diffChanged previous current ↔
        hwnd ∈ current.keys ∧ hwnd ∈ previous.keys
        ∧ ((current.info hwnd).1 ≠ (previous.info hwnd).1
           ∨ (current.info hwnd).2 ≠ (previous.info hwnd).2))
    ∧ diffCreated previous current ∩ diffDestroyed previous current = ∅
    ∧ diffCreated previous current ∩ diffChanged previous current = ∅
    ∧ diffCreated previous current ∩ diffUnchanged previous current = ∅
    ∧ diffDestroyed previous current ∩ diffChanged previous current = ∅
    ∧ diffDestroyed previous current ∩ diffUnchanged previous current = ∅
    ∧ diffChanged previous current ∩ diffUnchanged previous current = ∅
    ∧ diffCreated previous current ∪ diffDestroyed previous current
        ∪ diffChanged previous current ∪ diffUnchanged previous current
      = previous.keys ∪ current.keys
    ∧ diffCreated current current = ∅
    ∧ diffDestroyed current current = ∅
    ∧ diffChanged current current = ∅ := by
  refine ⟨rfl, rfl, ?_, ?_, ?_, ?_, ?_, ?_, ?_, ?_, ?_, ?_, ?_⟩
  · intro hwnd
    simp only [diffChanged, Finset.mem_filter, Finset.mem_inter, Ne, Prod.ext_iff,
      not_and_or]
    tauto
  · ext a
    simp only [diffCreated, diffDestroyed, Finset.mem_inter, Finset.mem_sdiff,
      Finset.not_mem_empty, iff_false]
    tauto
  · ext a
    simp only [diffCreated, diffChanged, Finset.mem_inter, Finset.mem_sdiff,
      Finset.mem_filter, Finset.not_mem_empty, iff_false]
    tauto
  · ext a
    simp only [diffCreated, diffUnchanged, Finset.mem_inter, Finset.mem_sdiff,
      Finset.mem_filter, Finset.not_mem_empty, iff_false]
    tauto
  · ext a
    simp only [diffDestroyed, diffChanged, Finset.mem_inter, Finset.mem_sdiff,
      Finset.mem_filter, Finset.not_mem_empty, iff_false]
    tauto
  · ext a
    simp only [diffDestroyed, diffUnchanged, Finset.mem_inter, Finset.mem_sdiff,
      Finset.mem_filter, Finset.not_mem_empty, iff_false]
    tauto
  · ext a
    simp only [diffChanged, diffUnchanged, Finset.mem_inter, Finset.mem_filter,
      Finset.not_mem_empty, iff_false]
    tauto
  · ext a
    simp only [diffCreated, diffDestroyed, diffChanged, diffUnchanged,
      Finset.mem_union, Finset.mem_sdiff, Finset.mem_inter, Finset.mem_filter]
    by_cases h : current.info a = previous.info a <;> tauto
  · simp [diffCreated]
  · simp [diffDestroyed]
  · ext a
    simp [diffChanged]

/-- One loop iteration appends exactly the evaluated rule's name to the
trace, whatever the match and dispatch outcomes. -/
theorem evalRuleStep_trace (o : Oracles) (event_type : String) (window_info : PyDict)
    (acc : EngineState × List String) (rule : Rule) :
    (evalRuleStep o event_type window_info acc rule).2 = acc.2 ++ [rule.name] := rfl

/-- One loop iteration never touches the window state. -/
theorem evalRuleStep_windowState (o : Oracles) (event_type : String)
    (window_info : PyDict) (acc : EngineState × List String) (rule : Rule) :
    (evalRuleStep o event_type window_info acc rule).1.windowState = acc.1.windowState := by
  unfold evalRuleStep
  dsimp only
  split_ifs <;> rfl

/-- One loop iteration never touches the event counter. -/
theorem evalRuleStep_eventCount (o : Oracles) (event_type : String)
    (window_info : PyDict) (acc : EngineState × List String) (rule : Rule) :
    (evalRuleStep o event_type window_info acc rule).1.eventCount = acc.1.eventCount := by
  unfold evalRuleStep
  dsimp only
  split_ifs <;> rfl

/-- The rule loop evaluates every rule it is given, in order: the trace
is the full name list, independent of the oracles. -/
theorem foldl_evalRuleStep_trace (o : Oracles) (event_type : String)
    (window_info : PyDict) :
    ∀ (rs : List Rule) (acc : EngineState × List String),
      (rs.foldl (evalRuleStep o event_type window_info) acc).2
        = acc.2 ++ rs.map Rule.name
  | [], acc => by simp
  | r :: rs, acc => by
    rw [List.foldl_cons, foldl_evalRuleStep_trace o event_type window_info rs _,
      evalRuleStep_trace]
    simp

/-- The rule loop never touches the window state. -/
theorem foldl_evalRuleStep_windowState (o : Oracles) (event_type : String)
    (window_info : PyDict) :
    ∀ (rs : List Rule) (acc : EngineState × List String),
      (rs.foldl (evalRuleStep o event_type window_info) acc).1.windowState
        = acc.1.windowState
  | [], acc => rfl
  | r :: rs, acc => by
    rw [List.foldl_cons, foldl_evalRuleStep_windowState o event_type window_info rs _,
      evalRuleStep_windowState]

/-- The rule loop never touches the event counter. -/
theorem foldl_evalRuleStep_eventCount (o : Oracles) (event_type : String)
    (window_info : PyDict) :
    ∀ (rs : List Rule) (acc : EngineState × List String),
      (rs.foldl (evalRuleStep o event_type window_info) acc).1.eventCount
        = acc.1.eventCount
  | [], acc => rfl
  | r :: rs, acc => by
    rw [List.foldl_cons, foldl_evalRuleStep_eventCount o event_type window_info rs _,
      evalRuleStep_eventCount]

/-- An unrecognized action type string makes `perform_action` fail. -/
theorem performAction_unknown (o : Oracles) (action_type : String)
    (target_windows : List PyDict) (new_window_info : PyDict)
    (h : action_type ∉ knownActionTypes) :
    performAction o action_type target_windows new_window_info = false := by
  simp [performAction, h]

/-- C2: for every event processed by `process_event`, every enabled rule
is evaluated: the trace of evaluated rules is exactly the stably
priority-sorted list of enabled rules — no early exit after a match, and
since the statement holds for every oracle (including ones whose regex
search or action helpers raise), one rule's failure never prevents the
evaluation of the remaining rules for the same event. -/
theorem process_event_evaluates_all_rules (o : Oracles) (rules : List Rule)
    (st : EngineState) (event_id hwnd : Int) (window_info : PyDict) :
    (processEvent o rules st event_id hwnd window_info).2
      = (sortRulesByPriority (getEnabledRules rules)).map Rule.name := by
  unfold processEvent
  rw [foldl_evalRuleStep_trace]
  simp

/-- An event type string other than the five handled by
`_update_window_state` leaves the window state untouched. -/
theorem updateWindowState_unhandled (event_type : String) (hwnd : Int)
    (window_info : PyDict) (ws : List (Int × PyDict))
    (h : event_type ∉ ["CREATE", "SHOW", "DESTROY", "HIDE", "NAMECHANGE"]) :
    updateWindowState event_type hwnd window_info ws = ws := by
  simp only [List.mem_cons, List.not_mem_nil, or_false] at h
  push_neg at h
  simp [updateWindowState, h.1, h.2.1, h.2.2.1, h.2.2.2.1, h.2.2.2.2]

/-- The synthesized `UNKNOWN_<id>` event type string is none of the
handled ones. -/
theorem unknown_event_type_unhandled (x : String) :
    ("UNKNOWN_" ++ x) ∉ ["CREATE", "SHOW", "DESTROY", "HIDE", "NAMECHANGE"] := by
  simp only [List.mem_cons, List.not_mem_nil, or_false]
  push_neg
  refine ⟨?_, ?_, ?_, ?_, ?_⟩ <;>
    (intro h; have h2 := congrArg String.data h; simp [String.data_append] at h2)

/-- An event id outside the engine's six-entry mapping is rendered as
`UNKNOWN_<id>`. -/
theorem eventTypeOfId_unknown (event_id : Int)
    (h : event_id ∉ [EVENT_OBJECT_CREATE, EVENT_OBJECT_DESTROY, EVENT_OBJECT_SHOW,
      EVENT_OBJECT_HIDE, EVENT_SYSTEM_FOREGROUND, EVENT_OBJECT_NAMECHANGE]) :
    eventTypeOfId event_id = "UNKNOWN_" ++ toString event_id := by
  simp only [List.mem_cons, List.not_mem_nil, or_false] at h
  push_neg at h
  simp [eventTypeOfId, h.1, h.2.1, h.2.2.1, h.2.2.2.1, h.2.2.2.2.1, h.2.2.2.2.2]

/-- C9: `process_event` is total at the public interface — the embedding
is a total function for every oracle, event id, handle and window info
(every helper failure is an `Except` value handled where the source
catches it) — `totalEventsProcessed` is incremented on every call, and an
event whose id maps to none of the six recognized kinds leaves the window
store unchanged. -/
theorem process_event_total (o : Oracles) (rules : List Rule) (st : EngineState)
    (event_id hwnd : Int) (window_info : PyDict) :
    (processEvent o rules st event_id hwnd window_info).1.eventCount = st.eventCount + 1
    ∧ (processEvent o rules st event_id hwnd window_info).1.windowState
        = updateWindowState (eventTypeOfId event_id) hwnd window_info st.windowState
    ∧ (event_id ∉ [EVENT_OBJECT_CREATE, EVENT_OBJECT_DESTROY, EVENT_OBJECT_SHOW,
        EVENT_OBJECT_HIDE, EVENT_SYSTEM_FOREGROUND, EVENT_OBJECT_NAMECHANGE] →
       (processEvent o rules st event_id hwnd window_info).1.windowState
         = st.windowState) := by
  refine ⟨?_, ?_, ?_⟩
  · unfold processEvent
    rw [foldl_evalRuleStep_eventCount]
  · unfold processEvent
    rw [foldl_evalRuleStep_windowState]
  · intro h
    unfold processEvent
    rw [foldl_evalRuleStep_windowState]
    dsimp only
    rw [eventTypeOfId_unknown _ h,
      updateWindowState_unhandled _ _ _ _ (unknown_event_type_unhandled _)]

/-- Oracles whose regex search finds nothing and whose action helpers
report failure. -/
def trivialOracles : Oracles :=
  ⟨fun _ _ => .ok false, fun _ _ _ => .ok false⟩

/-- Witness for C9 at the unrecognized event id 999. -/
theorem process_event_total_witness :
    (999 : Int) ∉ [EVENT_OBJECT_CREATE, EVENT_OBJECT_DESTROY, EVENT_OBJECT_SHOW,
      EVENT_OBJECT_HIDE, EVENT_SYSTEM_FOREGROUND, EVENT_OBJECT_NAMECHANGE]
    ∧ (processEvent trivialOracles [] ⟨[((5 : Int), [])], 0, []⟩ 999 7 []).1.windowState
        = [((5 : Int), [])]
    ∧ (processEvent trivialOracles [] ⟨[((5 : Int), [])], 0, []⟩ 999 7 []).1.eventCount = 1 := by
  refine ⟨by decide, ?_, ?_⟩
  · exact (process_event_total trivialOracles [] ⟨[((5 : Int), [])], 0, []⟩ 999 7 []).2.2 (by decide)
  · exact (process_event_total trivialOracles [] ⟨[((5 : Int), [])], 0, []⟩ 999 7 []).1

/-- A loop iteration for a rule with a different name leaves a name's
execution count untouched. -/
theorem evalRuleStep_count_ne (o : Oracles) (event_type : String)
    (window_info : PyDict) (acc : EngineState × List String) (rule : Rule)
    (n : String) (h : rule.name ≠ n) :
    alGet n (evalRuleStep o event_type window_info acc rule).1.ruleExecCount
      = alGet n acc.1.ruleExecCount := by
  unfold evalRuleStep
  dsimp only
  split_ifs <;> simp [bumpCount, alGet_alInsert_ne _ _ _ _ h]

/-- A loop iteration for a rule whose action type is unrecognized leaves
all execution counts untouched: the dispatch fails, so no bump happens. -/
theorem evalRuleStep_count_unknown (o : Oracles) (event_type : String)
    (window_info : PyDict) (acc : EngineState × List String) (rule : Rule)
    (h : rule.action.type ∉ knownActionTypes) :
    (evalRuleStep o event_type window_info acc rule).1.ruleExecCount
      = acc.1.ruleExecCount := by
  unfold evalRuleStep
  dsimp only
  simp only [performAction, h, if_false]
  split_ifs <;> first | rfl | contradiction

/-- Over a rule list in which every rule named `n` has an unrecognized
action type, the loop leaves the execution count of `n` untouched. -/
theorem foldl_evalRuleStep_count (o : Oracles) (event_type : String)
    (window_info : PyDict) (n : String) :
    ∀ (rs : List Rule) (acc : EngineState × List String),
      (∀ r ∈ rs, r.name = n → r.action.type ∉ knownActionTypes) →
      alGet n (rs.foldl (evalRuleStep o event_type window_info) acc).1.ruleExecCount
        = alGet n acc.1.ruleExecCount
  | [], _, _ => rfl
  | r :: rs, acc, h => by
    rw [List.foldl_cons,
      foldl_evalRuleStep_count o event_type window_info n rs _
        (fun x hx => h x (List.mem_cons_of_mem _ hx))]
    by_cases hn : r.name = n
    · rw [evalRuleStep_count_unknown o event_type window_info acc r
        (h r (List.mem_cons_self _ _) hn)]
    · rw [evalRuleStep_count_ne o event_type window_info acc r n hn]

/-- C5: when a rule matches an event but its action type is not one of
the five recognized ones, the dispatch call returns failure, that rule's
execution count is unchanged, `totalEventsProcessed` is still
incremented, and the remaining rules are still evaluated (the trace is
complete).  Rule names are unique per the data model, hence the `Nodup`
hypothesis. -/
theorem matched_unknown_action_type (o : Oracles) (rules : List Rule)
    (st : EngineState) (event_id hwnd : Int) (window_info : PyDict) (rule : Rule)
    (h1 : rule ∈ getEnabledRules rules)
    (_h2 : matchRuleCondition o rule (eventTypeOfId event_id) window_info = true)
    (h3 : rule.action.type ∉ knownActionTypes)
    (h4 : ((getEnabledRules rules).map Rule.name).Nodup) :
    (∀ (targets : List PyDict) (info : PyDict),
        performAction o rule.action.type targets info = false)
    ∧ alGet rule.name (processEvent o rules st event_id hwnd window_info).1.ruleExecCount
        = alGet rule.name st.ruleExecCount
    ∧ (processEvent o rules st event_id hwnd window_info).1.eventCount = st.eventCount + 1
    ∧ (processEvent o rules st event_id hwnd window_info).2
        = (sortRulesByPriority (getEnabledRules rules)).map Rule.name := by
  have hall : ∀ r ∈ sortRulesByPriority (getEnabledRules rules),
      r.name = rule.name → r.action.type ∉ knownActionTypes := by
    intro r hr hname
    have hr2 : r ∈ getEnabledRules rules := by
      simpa [sortRulesByPriority] using hr
    have : r = rule := List.inj_on_of_nodup_map h4 hr2 h1 hname
    rwa [this]
  refine ⟨fun tg info => performAction_unknown o _ tg info h3, ?_, ?_, ?_⟩
  · unfold processEvent
    dsimp only
    rw [foldl_evalRuleStep_count o (eventTypeOfId event_id) window_info rule.name
      (sortRulesByPriority (getEnabledRules rules)) _ hall]
  · unfold processEvent
    rw [foldl_evalRuleStep_eventCount]
  · unfold processEvent
    rw [foldl_evalRuleStep_trace]
    simp

/-- A concrete enabled rule whose action type is unrecognized. -/
def ruleW : Rule :=
  { name := "w", enabled := true, priority := some 5,
    trigger := { event_type := some "CREATE", executable_name := Option.none,
                 window_class := Option.none, title_pattern := Option.none },
    action := { type := "FROBNICATE", exclude_trigger_window := false,
                is_visible := false, is_top_level := false } }

/-- Witness for C5: a `CREATE` event matching `ruleW`, whose action type
is unrecognized. -/
theorem matched_unknown_action_type_witness :
    performAction trivialOracles "FROBNICATE" [] [] = false
    ∧ alGet "w" (processEvent trivialOracles [ruleW] ⟨[], 0, []⟩ 32768 7 []).1.ruleExecCount
        = alGet "w" ([] : List (String × Nat))
    ∧ (processEvent trivialOracles [ruleW] ⟨[], 0, []⟩ 32768 7 []).1.eventCount = 1 := by
  have h := matched_unknown_action_type trivialOracles [ruleW] ⟨[], 0, []⟩ 32768 7 [] ruleW
    (by decide) (by decide) (by decide) (by decide)
  exact ⟨h.1 [] [], h.2.1, h.2.2.1⟩

/-- C3: the store update of `process_event` is determined by the event
kind — on `CREATE`/`SHOW` the entry is replaced wholesale by the supplied
info; on `DESTROY`/`HIDE` the entry is deleted, and the info delivered
with such an event by the monitor is the synthesized minimal record
carrying the last known title and class with `is_visible = false`; on
`NAMECHANGE` the existing entry's fields are merged with (updated from)
the supplied info rather than replaced: keys absent from the supplied
info keep their old values, keys present take the new ones. -/
theorem store_update_semantics (hwnd : Int) (window_info old : PyDict)
    (ws : List (Int × PyDict)) (getFull : Int → PyDict)
    (previous current : Snapshot) (t c : String) (k : String) :
    updateWindowState "CREATE" hwnd window_info ws = alInsert hwnd window_info ws
    ∧ updateWindowState "SHOW" hwnd window_info ws = alInsert hwnd window_info ws
    ∧ alGet hwnd (updateWindowState "CREATE" hwnd window_info ws) = some window_info
    ∧ updateWindowState "DESTROY" hwnd window_info ws = alErase hwnd ws
    ∧ updateWindowState "HIDE" hwnd window_info ws = alErase hwnd ws
    ∧ alGet hwnd (updateWindowState "DESTROY" hwnd window_info ws) = Option.none
    ∧ (∀ ev ∈ pollTick getFull previous current, ev.1 = EVENT_OBJECT_DESTROY →
        ev.2.2 = closedWindowInfo ev.2.1 (previous.info ev.2.1).1 (previous.info ev.2.1).2)
    ∧ alGet "title" (closedWindowInfo hwnd t c) = some (.str t)
    ∧ alGet "class_name" (closedWindowInfo hwnd t c) = some (.str c)
    ∧ alGet "is_visible" (closedWindowInfo hwnd t c) = some (.bool false)
    ∧ (alGet hwnd ws = some old →
        alGet hwnd (updateWindowState "NAMECHANGE" hwnd window_info ws)
          = some (pyDictUpdate old window_info)
        ∧ (k ∉ window_info.map Prod.fst →
            alGet k (pyDictUpdate old window_info) = alGet k old)
        ∧ ((window_info.map Prod.fst).Nodup → k ∈ window_info.map Prod.fst →
            alGet k (pyDictUpdate old window_info) = alGet k window_info)) := by
  refine ⟨by simp [updateWindowState], by simp [updateWindowState], ?_, ?_, ?_, ?_, ?_,
    by simp [closedWindowInfo, alGet], by simp [closedWindowInfo, alGet],
    by simp [closedWindowInfo, alGet], ?_⟩
  · simp [updateWindowState, alGet_alInsert_self]
  · simp [updateWindowState]
  · simp [updateWindowState]
  · simp [updateWindowState, alGet_alErase_self]
  · intro ev hev hdestroy
    simp only [pollTick, List.mem_append, List.mem_filterMap, List.mem_map] at hev
    rcases hev with (⟨h0, _, heq⟩ | ⟨h0, _, heq⟩) | ⟨h0, _, heq⟩
    · split_ifs at heq
      injection heq with heq
      rw [← heq] at hdestroy
      simp [EVENT_OBJECT_CREATE, EVENT_OBJECT_DESTROY] at hdestroy
    · rw [← heq]
    · split_ifs at heq
      injection heq with heq
      rw [← heq] at hdestroy
      simp [EVENT_OBJECT_NAMECHANGE, EVENT_OBJECT_DESTROY] at hdestroy
  · intro hold
    refine ⟨?_, fun hk => pyDictUpdate_not_mem old window_info k hk,
      fun hnd hk => pyDictUpdate_mem old window_info k hnd hk⟩
    simp [updateWindowState, hold, alGet_alInsert_self]

/-- Witness for C3: a `NAMECHANGE` merge that keeps the old
`class_name` while taking the new `title`. -/
theorem store_update_semantics_witness :
    alGet (1 : Int) (updateWindowState "NAMECHANGE" 1 [("title", .str "b")]
        [((1 : Int), [("title", .str "a"), ("class_name", .str "K")])])
      = some (pyDictUpdate [("title", .str "a"), ("class_name", .str "K")] [("title", .str "b")])
    ∧ alGet "class_name"
        (pyDictUpdate [("title", .str "a"), ("class_name", .str "K")] [("title", .str "b")])
      = alGet "class_name" [("title", PyVal.str "a"), ("class_name", PyVal.str "K")]
    ∧ alGet "title"
        (pyDictUpdate [("title", .str "a"), ("class_name", .str "K")] [("title", .str "b")])
      = alGet "title" [("title", PyVal.str "b")] := by
  have h := store_update_semantics 1 [("title", .str "b")]
    [("title", .str "a"), ("class_name", .str "K")]
    [((1 : Int), [("title", .str "a"), ("class_name", .str "K")])]
    (fun _ => []) ⟨∅, fun _ => ("T", "C")⟩ ⟨∅, fun _ => ("T", "C")⟩ "T" "C" "class_name"
  have h2 := store_update_semantics 1 [("title", .str "b")]
    [("title", .str "a"), ("class_name", .str "K")]
    [((1 : Int), [("title", .str "a"), ("class_name", .str "K")])]
    (fun _ => []) ⟨∅, fun _ => ("T", "C")⟩ ⟨∅, fun _ => ("T", "C")⟩ "T" "C" "title"
  have hm := h.2.2.2.2.2.2.2.2.2.2 (by decide)
  have hm2 := h2.2.2.2.2.2.2.2.2.2.2 (by decide)
  exact ⟨hm.1, hm.2.1 (by decide), hm2.2.2 (by decide) (by decide)⟩

/-- The executable-name clause succeeds exactly on a truthy string path
whose lowercased basename equals the lowercased expected name. -/
theorem exeCondition_iff (e : String) (wi : PyDict) :
    exeCondition e wi = true ↔
      ∃ s : String, alGetD "exe_path" wi (.str "") = .str s ∧ s ≠ ""
        ∧ pyLower (pyBasename s) = pyLower e := by
  unfold exeCondition
  cases hv : alGetD "exe_path" wi (.str "") with
  | none => simp
  | bool b => simp
  | int n => simp
  | str s =>
    by_cases hs : s = ""
    · subst hs
      simp
    · simp [hs]

/-- The window-class clause succeeds exactly on an exact, case-sensitive
class match. -/
theorem classCondition_iff (c : String) (wi : PyDict) :
    classCondition c wi = true ↔ alGetD "class_name" wi (.str "") = .str c := by
  simp [classCondition]

/-- The title-pattern clause succeeds exactly when the title is a string
on which the regex search succeeds. -/
theorem titleCondition_iff (o : Oracles) (p : String) (wi : PyDict) :
    titleCondition o p wi = true ↔
      ∃ s : String, alGetD "title" wi (.str "") = .str s ∧ o.search p s = .ok true := by
  unfold titleCondition
  cases hv : alGetD "title" wi (.str "") with
  | none => simp
  | bool b => simp
  | int n => simp
  | str s =>
    cases hr : o.search p s with
    | ok b => cases b <;> simp [hr]
    | error e2 => simp [hr]

/-- C4: the trigger matches exactly when the event kind equals the
trigger's event kind; if `executable_name` is set, the base name of the
window's executable path equals it case-insensitively, a window whose
path is absent, `None` or empty never matching; if `window_class` is
set, the window's class equals it exactly and case-sensitively; and if
`title_pattern` is set, the regex search (`re.search`, a substring
search, embedded as the `search` oracle) succeeds on the window's
title. -/
theorem match_rule_condition_characterization (o : Oracles) (rule : Rule)
    (event_type : String) (window_info : PyDict) :
    matchRuleCondition o rule event_type window_info = true ↔
      rule.trigger.event_type = some event_type
      ∧ (∀ e, rule.trigger.executable_name = some e →
          ∃ s : String, alGetD "exe_path" window_info (.str "") = .str s ∧ s ≠ ""
            ∧ pyLower (pyBasename s) = pyLower e)
      ∧ (∀ c, rule.trigger.window_class = some c →
          alGetD "class_name" window_info (.str "") = .str c)
      ∧ (∀ p, rule.trigger.title_pattern = some p →
          ∃ s : String, alGetD "title" window_info (.str "") = .str s
            ∧ o.search p s = .ok true) := by
  unfold matchRuleCondition
  simp only [Bool.and_eq_true, decide_eq_true_eq]
  constructor
  · rintro ⟨⟨⟨h1, h2⟩, h3⟩, h4⟩
    refine ⟨h1, ?_, ?_, ?_⟩
    · intro e he
      rw [he] at h2
      exact (exeCondition_iff e window_info).mp h2
    · intro c hc
      rw [hc] at h3
      exact (classCondition_iff c window_info).mp h3
    · intro p hp
      rw [hp] at h4
      exact (titleCondition_iff o p window_info).mp h4
  · rintro ⟨h1, h2, h3, h4⟩
    refine ⟨⟨⟨h1, ?_⟩, ?_⟩, ?_⟩
    · cases he : rule.trigger.executable_name with
      | none => rfl
      | some e => exact (exeCondition_iff e window_info).mpr (h2 e he)
    · cases hc : rule.trigger.window_class with
      | none => rfl
      | some c => exact (classCondition_iff c window_info).mpr (h3 c hc)
    · cases hp : rule.trigger.title_pattern with
      | none => rfl
      | some p => exact (titleCondition_iff o p window_info).mpr (h4 p hp)

/-- The descending priority comparison is transitive. -/
theorem prioLE_trans (a b c : Rule) : decide (prioOf b ≤ prioOf a)
    → decide (prioOf c ≤ prioOf b) → decide (prioOf c ≤ prioOf a) := by
  simp only [decide_eq_true_eq]
  exact fun h1 h2 => le_trans h2 h1

/-- The descending priority comparison is total. -/
theorem prioLE_total (a b : Rule) :
    decide (prioOf b ≤ prioOf a) || decide (prioOf a ≤ prioOf b) := by
  simp only [Bool.or_eq_true, decide_eq_true_eq]
  exact le_total _ _

/-- C6: sorting the enabled rules by priority is stable and descending —
the result is pairwise descending in priority (so every rule of higher
priority precedes every rule of lower priority), it is a permutation of
the enabled rules, and any two rules of equal priority that appear in
input order (as a sublist) still appear in that order in the result. -/
theorem sort_rules_stable_descending (rules : List Rule) :
    (sortRulesByPriority (getEnabledRules rules)).Pairwise
        (fun a b => prioOf b ≤ prioOf a)
    ∧ List.Perm (sortRulesByPriority (getEnabledRules rules)) (getEnabledRules rules)
    ∧ (∀ a b : Rule, prioOf a = prioOf b →
        List.Sublist [a, b] (getEnabledRules rules) →
        List.Sublist [a, b] (sortRulesByPriority (getEnabledRules rules))) := by
  refine ⟨?_, ?_, ?_⟩
  · have h := @List.sorted_mergeSort Rule (fun a b => decide (prioOf b ≤ prioOf a))
      prioLE_trans prioLE_total (getEnabledRules rules)
    exact h.imp (fun hab => by simpa using hab)
  · exact List.mergeSort_perm (getEnabledRules rules) _
  · intro a b hpq hsub
    exact List.pair_sublist_mergeSort prioLE_trans prioLE_total
      (by simp [hpq]) hsub

/-- A second enabled rule with the same priority as `ruleW`. -/
def ruleW2 : Rule :=
  { ruleW with name := "w2" }

/-- Witness for C6: two equal-priority rules keep their input order in
the sorted result. -/
theorem sort_rules_stable_descending_witness :
    List.Sublist [ruleW, ruleW2] (sortRulesByPriority (getEnabledRules [ruleW, ruleW2])) :=
  (sort_rules_stable_descending [ruleW, ruleW2]).2.2 ruleW ruleW2 (by decide)
    (List.Sublist.refl _)

/-- The append loop of `load_rules` is the validation filter. -/
theorem loadRules_foldl_filter (rules : List RawItem) :
    ∀ acc : List RawItem,
      rules.foldl (fun validated r =>
        if validateRule r then validated ++ [r] else validated) acc
      = acc ++ rules.filter validateRule := by
  induction rules with
  | nil => intro acc; simp
  | cons r rs ih =>
    intro acc
    by_cases h : validateRule r
    · simp [List.foldl_cons, h, ih, List.filter_cons]
    · simp [List.foldl_cons, h, ih, List.filter_cons]

/-- `load_rules` keeps exactly the rules accepted by the validator. -/
theorem loadRules_eq_filter (rules : List RawItem) :
    loadRules rules = rules.filter validateRule :=
  loadRules_foldl_filter rules []

/-- What passing the validator guarantees: a record with the four
required fields, a trigger dictionary with a recognized `event_type`
string, and an action dictionary with a recognized `type` string. -/
theorem validateRule_spec (r : RawItem) (h : validateRule r = true) :
    ∃ fields, r = RawItem.rule fields
      ∧ (alGet "name" fields).isSome ∧ (alGet "enabled" fields).isSome
      ∧ (∃ trigger, alGet "trigger" fields = some (.dict trigger)
          ∧ ∃ s, alGet "event_type" trigger = some (.str s) ∧ s ∈ validEventTypes)
      ∧ (∃ action, alGet "action" fields = some (.dict action)
          ∧ ∃ s, alGet "type" action = some (.str s) ∧ s ∈ validActionTypes) := by
  cases r with
  | atom v => simp [validateRule] at h
  | rule fields =>
    refine ⟨fields, rfl, ?_⟩
    simp only [validateRule, Bool.and_eq_true] at h
    obtain ⟨⟨⟨⟨hn, he⟩, _⟩, _⟩, hrest⟩ := h
    refine ⟨hn, he, ?_⟩
    cases htr : alGet "trigger" fields with
    | none => rw [htr] at hrest; simp at hrest
    | some tf =>
      cases tf with
      | atom v => rw [htr] at hrest; simp at hrest
      | dict trigger =>
        rw [htr] at hrest
        cases hac : alGet "action" fields with
        | none => rw [hac] at hrest; simp at hrest
        | some af =>
          cases af with
          | atom v => rw [hac] at hrest; simp at hrest
          | dict action =>
            rw [hac] at hrest
            simp only [Bool.and_eq_true] at hrest
            obtain ⟨⟨⟨_, _⟩, hev⟩, hty⟩ := hrest
            constructor
            · refine ⟨trigger, rfl, ?_⟩
              cases hevv : alGet "event_type" trigger with
              | none => rw [hevv] at hev; simp at hev
              | some v =>
                cases v with
                | str s =>
                  rw [hevv] at hev
                  simp only [decide_eq_true_eq] at hev
                  exact ⟨s, rfl, hev⟩
                | none => rw [hevv] at hev; simp at hev
                | bool b => rw [hevv] at hev; simp at hev
                | int n => rw [hevv] at hev; simp at hev
            · refine ⟨action, rfl, ?_⟩
              cases htyv : alGet "type" action with
              | none => rw [htyv] at hty; simp at hty
              | some v =>
                cases v with
                | str s =>
                  rw [htyv] at hty
                  simp only [decide_eq_true_eq] at hty
                  exact ⟨s, rfl, hty⟩
                | none => rw [htyv] at hty; simp at hty
                | bool b => rw [htyv] at hty; simp at hty
                | int n => rw [htyv] at hty; simp at hty

/-- C7: load-time validation keeps exactly the rule records that pass the
validator, so a record whose trigger `event_type` is not one of the six
recognized kinds, whose action `type` is not one of the five recognized
ones, or which is missing a required field, is dropped at load time while
the remaining rules are still loaded, and a dropped rule is never present
in the loaded list the engine evaluates. -/
theorem load_drops_invalid_rules (rules : List RawItem) (r : RawItem) :
    loadRules rules = rules.filter validateRule
    ∧ (r ∈ loadRules rules ↔ r ∈ rules ∧ validateRule r = true)
    ∧ (validateRule r = true →
        ∃ fields, r = RawItem.rule fields
          ∧ (alGet "name" fields).isSome ∧ (alGet "enabled" fields).isSome
          ∧ (∃ trigger, alGet "trigger" fields = some (.dict trigger)
              ∧ ∃ s, alGet "event_type" trigger = some (.str s) ∧ s ∈ validEventTypes)
          ∧ (∃ action, alGet "action" fields = some (.dict action)
              ∧ ∃ s, alGet "type" action = some (.str s) ∧ s ∈ validActionTypes)) := by
  refine ⟨loadRules_eq_filter rules, ?_, validateRule_spec r⟩
  rw [loadRules_eq_filter]
  simp [List.mem_filter]

/-- A raw rule record that passes validation. -/
def rawValid : RawItem :=
  .rule [("name", .atom (.str "v")), ("enabled", .atom (.bool true)),
         ("trigger", .dict [("event_type", .str "CREATE")]),
         ("action", .dict [("type", .str "CLOSE_WINDOW")])]

/-- A raw rule record with an unrecognized trigger event type. -/
def rawInvalid : RawItem :=
  .rule [("name", .atom (.str "i")), ("enabled", .atom (.bool true)),
         ("trigger", .dict [("event_type", .str "BOGUS")]),
         ("action", .dict [("type", .str "CLOSE_WINDOW")])]

/-- Witness for C7: the record with event type `BOGUS` is dropped, the
valid record is kept and satisfies the validator's guarantees. -/
theorem load_drops_invalid_rules_witness :
    loadRules [rawValid, rawInvalid] = [rawValid]
    ∧ rawInvalid ∉ loadRules [rawValid, rawInvalid]
    ∧ (∃ fields, rawValid = RawItem.rule fields
        ∧ (alGet "name" fields).isSome ∧ (alGet "enabled" fields).isSome
        ∧ (∃ trigger, alGet "trigger" fields = some (.dict trigger)
            ∧ ∃ s, alGet "event_type" trigger = some (.str s) ∧ s ∈ validEventTypes)
        ∧ (∃ action, alGet "action" fields = some (.dict action)
            ∧ ∃ s, alGet "type" action = some (.str s) ∧ s ∈ validActionTypes)) := by
  refine ⟨by decide, ?_, (load_drops_invalid_rules [rawValid, rawInvalid] rawValid).2.2 (by decide)⟩
  intro hmem
  have h := ((load_drops_invalid_rules [rawValid, rawInvalid] rawInvalid).2.1.mp hmem).2
  exact absurd h (by decide)

/-- C8: `set_polling_interval` stores the requested value clamped to
`[0.1, 60.0]` and returns true — a request below 0.1 stores exactly 0.1,
a request above 60.0 stores exactly 60.0, an in-range request is stored
unchanged — and the stored value is the one the polling loop reads for
its next sleep. -/
theorem set_polling_interval_clamps (st : MonitorState) (interval : ℚ) :
    (setPollingInterval st interval).2 = true
    ∧ 1/10 ≤ (setPollingInterval st interval).1.polling_interval
    ∧ (setPollingInterval st interval).1.polling_interval ≤ 60
    ∧ (interval < 1/10 → (setPollingInterval st interval).1.polling_interval = 1/10)
    ∧ (interval > 60 → (setPollingInterval st interval).1.polling_interval = 60)
    ∧ (1/10 ≤ interval → interval ≤ 60 →
        (setPollingInterval st interval).1.polling_interval = interval)
    ∧ loopSleepDuration (setPollingInterval st interval).1
        = (setPollingInterval st interval).1.polling_interval := by
  unfold setPollingInterval loopSleepDuration
  dsimp only
  split_ifs with h1 h2 <;>
    refine ⟨rfl, ?_, ?_, ?_, ?_, ?_, rfl⟩ <;> intros <;>
      first | rfl | linarith

/-- Witness for C8: `SetInterval(0.01)` stores 0.1, `SetInterval(120)`
stores 60, `SetInterval(2)` stores 2, and the call reports success. -/
theorem set_polling_interval_clamps_witness :
    (setPollingInterval ⟨3, true⟩ (1/100)).1.polling_interval = 1/10
    ∧ (setPollingInterval ⟨3, true⟩ 120).1.polling_interval = 60
    ∧ (setPollingInterval ⟨3, true⟩ 2).1.polling_interval = 2
    ∧ (setPollingInterval ⟨3, true⟩ (1/100)).2 = true :=
  ⟨(set_polling_interval_clamps ⟨3, true⟩ (1/100)).2.2.2.1 (by norm_num),
   (set_polling_interval_clamps ⟨3, true⟩ 120).2.2.2.2.1 (by norm_num),
   (set_polling_interval_clamps ⟨3, true⟩ 2).2.2.2.2.2.1 (by norm_num) (by norm_num),
   (set_polling_interval_clamps ⟨3, true⟩ (1/100)).1⟩

/-- Unfolding one enumerated handle of `_initialize_window_state`. -/
theorem initializeWindowState_cons (hd : Int) (tl : List Int)
    (getInfo : Int → PyDict) (ws : List (Int × PyDict)) :
    initializeWindowState (hd :: tl) getInfo ws
      = initializeWindowState tl getInfo
          (if getInfo hd ≠ [] ∧ truthy (alGetD "title" (getInfo hd) .none) then
            alInsert hd (getInfo hd) ws
          else ws) := rfl

/-- `_initialize_window_state` never drops a present entry. -/
theorem initializeWindowState_isSome (getInfo : Int → PyDict) (hwnd : Int) :
    ∀ (handles : List Int) (ws : List (Int × PyDict)),
      (alGet hwnd ws).isSome →
      (alGet hwnd (initializeWindowState handles getInfo ws)).isSome
  | [], _, h => h
  | hd :: tl, ws, h => by
    rw [initializeWindowState_cons]
    apply initializeWindowState_isSome getInfo hwnd tl
    split_ifs
    · exact alGet_alInsert_isSome hwnd hd (getInfo hd) ws h
    · exact h

/-- `_initialize_window_state` leaves entries outside the enumeration
untouched. -/
theorem initializeWindowState_not_enum (getInfo : Int → PyDict) (hwnd : Int) :
    ∀ (handles : List Int) (ws : List (Int × PyDict)), hwnd ∉ handles →
      alGet hwnd (initializeWindowState handles getInfo ws) = alGet hwnd ws
  | [], _, _ => rfl
  | hd :: tl, ws, h => by
    have hne : hd ≠ hwnd := fun hh => h (hh ▸ List.mem_cons_self hd tl)
    have htl : hwnd ∉ tl := fun hh => h (List.mem_cons_of_mem hd hh)
    rw [initializeWindowState_cons,
      initializeWindowState_not_enum getInfo hwnd tl _ htl]
    split_ifs
    · exact alGet_alInsert_ne hwnd hd (getInfo hd) ws hne
    · rfl

/-- C10: `refresh_window_state` (which re-runs the initial state load)
only adds or overwrites store entries and never deletes any — a handle
present in the store stays present, and a handle absent from the current
enumeration keeps its entry unchanged. -/
theorem refresh_never_deletes (handles : List Int) (getInfo : Int → PyDict)
    (ws : List (Int × PyDict)) (hwnd : Int) :
    ((alGet hwnd ws).isSome →
      (alGet hwnd (refreshWindowState handles getInfo ws)).isSome)
    ∧ (hwnd ∉ handles →
        alGet hwnd (refreshWindowState handles getInfo ws) = alGet hwnd ws) :=
  ⟨initializeWindowState_isSome getInfo hwnd handles ws,
   initializeWindowState_not_enum getInfo hwnd handles ws⟩

/-- Witness for C10: handle 1 is in the store but absent from the fresh
enumeration `[2]`; its entry survives the refresh unchanged. -/
theorem refresh_never_deletes_witness :
    (alGet (1 : Int)
      (refreshWindowState [2] (fun _ => [("title", PyVal.str "x")])
        [((1 : Int), [("title", PyVal.str "t")])])).isSome
    ∧ alGet (1 : Int)
        (refreshWindowState [2] (fun _ => [("title", PyVal.str "x")])
          [((1 : Int), [("title", PyVal.str "t")])])
      = alGet (1 : Int) [((1 : Int), [("title", PyVal.str "t")])] :=
  ⟨(refresh_never_deletes [2] (fun _ => [("title", PyVal.str "x")])
      [((1 : Int), [("title", PyVal.str "t")])] 1).1 (by decide),
   (refresh_never_deletes [2] (fun _ => [("title", PyVal.str "x")])
      [((1 : Int), [("title", PyVal.str "t")])] 1).2 (by decide)⟩

/-- An enabled rule triggering on `CREATE` events from `notepad.exe`
(spelled with different case than the window's path). -/
def ruleExe : Rule :=
  { name := "exe", enabled := true, priority := Option.none,
    trigger := { event_type := some "CREATE", executable_name := some "NOTEPAD.exe",
                 window_class := Option.none, title_pattern := Option.none },
    action := { type := "CLOSE_WINDOW", exclude_trigger_window := false,
                is_visible := false, is_top_level := false } }

/-- A window-info dictionary with an absolute executable path. -/
def wiExe : PyDict :=
  [("title", .str "Untitled"), ("class_name", .str "Notepad"),
   ("exe_path", .str "C:\\Tools\\notepad.exe")]

/-- Witness for C4: the trigger matches a window whose executable base
name agrees case-insensitively. -/
theorem match_rule_condition_characterization_witness :
    matchRuleCondition trivialOracles ruleExe "CREATE" wiExe = true
    ∧ ∃ s : String, alGetD "exe_path" wiExe (.str "") = .str s ∧ s ≠ ""
        ∧ pyLower (pyBasename s) = pyLower "NOTEPAD.exe" :=
  ⟨by decide,
   ((match_rule_condition_characterization trivialOracles ruleExe "CREATE" wiExe).mp
      (by decide)).2.1 "NOTEPAD.exe" rfl⟩

end DesktopManager
